import Mathlib

/-!
Shallow embedding of `src/ts-enums.ts`.

The repository ships two variants of the same library in one file:
the TypeScript source (class `EnumValue` / class `Enum`) and a compiled
ES5 build (`EnumValue` / `Enum` IIFE constructors).  The two differ in
observable behaviour, so both are embedded:

* TS variant: `_ordinal` is assigned in `Enum.enumValuesFromObject` as the
  index in property-discovery order; there is NO duplicate-description
  check; `initEnum` freezes the values array (not `theEnum`); class `Enum`
  defines no `toString`.
* ES5 variant: `_ordinal` is assigned in the `EnumValue` constructor from a
  per-constructor counter (`EnumValue.sizes`); `enumValuesFromObject`
  freezes members, flips the INITIALIZED marker on
  `values[0].constructor`, and only then checks description uniqueness;
  `initEnum` freezes `theEnum` itself, so (the file being a strict-mode
  ES module) a later `initEnum` call on that same instance throws a
  TypeError at the `this.name = name` assignment.

Objects are modelled by plain records; JavaScript mutation becomes explicit
state passing.  Each concrete subclass of `EnumValue` (a JS constructor
function) is identified by a `Nat` class id; the hidden INITIALIZED marker
on a constructor becomes membership of the class id in a `sealedClasses`
list.  `undefined` fields (`_ordinal`, `_propName`, `name` before they
are assigned) become `Option`.  Operations that may throw return the
post-mutation state together with `Except EnumError α`, so the side effects
a JS `throw` leaves behind remain observable.
-/

/-- One `EnumValue` object: `_description` from the constructor, `_ordinal`
and `_propName` possibly still undefined, a frozen flag, and the identity
of its concrete constructor (class id). -/
structure EnumValueData where
  classId : Nat
  description : String
  ordinal : Option Nat
  propName : Option String
  frozen : Bool
deriving Repr, DecidableEq

/-- Value of an own property of an enum object: either an `EnumValue`
instance or something else (`instanceof EnumValue` fails). -/
inductive PropVal where
  | ev (v : EnumValueData)
  | other
deriving Repr, DecidableEq

/-- An `Enum` object: its own properties in definition order (the order
`Object.getOwnPropertyNames` reports for string keys), its `name` field
(undefined until `initEnum` runs), and whether `Object.freeze` was applied
to it. -/
structure EnumObj where
  props : List (String × PropVal)
  name : Option String
  frozen : Bool
deriving Repr, DecidableEq

/-- Lookup in the process-wide `Enum.enumValues` map; `Map.get(undefined)`
is undefined, hence the `Option String` key. -/
def lookupReg (reg : List (String × List EnumValueData)) :
    Option String → Option (List EnumValueData)
  | none => none
  | some s => (reg.find? (fun p => p.1 == s)).map (·.2)

/-- `Map.set`: replace the entry in place if the key is present, otherwise
append. -/
def setReg (reg : List (String × List EnumValueData)) (s : String)
    (vs : List EnumValueData) : List (String × List EnumValueData) :=
  match reg with
  | [] => [(s, vs)]
  | (k, v) :: rest => if k == s then (s, vs) :: rest else (k, v) :: setReg rest s vs

/-- The own properties of `theEnum` whose value passes
`instanceof EnumValue`, with their keys, in discovery order:
`Object.getOwnPropertyNames(theEnum).filter(...)`. -/
def evPairs : List (String × PropVal) → List (String × EnumValueData)
  | [] => []
  | (k, PropVal.ev v) :: rest => (k, v) :: evPairs rest
  | (_, PropVal.other) :: rest => evPairs rest

/-- JavaScript `Array.prototype.map` with its index argument. -/
def mapWithIndex (f : Nat → α → β) : Nat → List α → List β
  | _, [] => []
  | i, x :: xs => f i x :: mapWithIndex f (i + 1) xs

/-- Errors thrown by the library. -/
inductive EnumError where
  /-- "EnumValue classes can’t be instantiated individually" -/
  | illegalInstantiation
  /-- "Duplicate name: " + theEnum.name -/
  | duplicateName (name : Option String)
  /-- "All descriptions must be unique for a given enum type." +
  "Instead, there are multiples in " + theEnum.name -/
  | duplicateDescription (name : Option String)
  /-- TypeError raised by strict-mode code (both halves of the source are
  ES modules) when assigning to a property of a frozen object — in
  particular `this.name = name` on an enum object that a previous ES5
  sealing froze with `Object.freeze(theEnum)`. -/
  | typeError
deriving Repr, DecidableEq

/-! ## TS variant -/

/-- Process-wide state of the TS variant: the static `Enum.enumValues`
map and, for every concrete `EnumValue` subclass, whether the hidden
INITIALIZED marker has been set on its constructor. -/
structure TSState where
  registry : List (String × List EnumValueData)
  sealedClasses : List Nat
deriving Repr, DecidableEq

/-- TS `EnumValue` constructor: throws if the concrete class already
carries the INITIALIZED marker; otherwise records the description
(`_ordinal` and `_propName` stay undefined until sealing). -/
def mkEnumValueTS (st : TSState) (c : Nat) (desc : String) :
    TSState × Except EnumError EnumValueData :=
  if c ∈ st.sealedClasses then (st, Except.error EnumError.illegalInstantiation)
  else (st, Except.ok ⟨c, desc, none, none, false⟩)

/-- In-place effect of TS `enumValuesFromObject` on the enum's own
properties: each `EnumValue`-valued property gets `_ordinal` = its index
among the discovered values, `_propName` = its key, and is frozen. -/
def sealPropsTS : Nat → List (String × PropVal) → List (String × PropVal)
  | _, [] => []
  | i, (k, PropVal.ev v) :: rest =>
      (k, PropVal.ev { v with ordinal := some i, propName := some k, frozen := true }) ::
        sealPropsTS (i + 1) rest
  | i, (k, PropVal.other) :: rest => (k, PropVal.other) :: sealPropsTS i rest

/-- Update applied by TS `enumValuesFromObject` to the value found at
(filtered) index `i` under key `p.1`. -/
def sealFnTS (i : Nat) (p : String × EnumValueData) : EnumValueData :=
  { p.2 with ordinal := some i, propName := some p.1, frozen := true }

/-- The array returned by TS `enumValuesFromObject`: discovered values with
ordinal, propName and frozen set, in discovery order. -/
def enumValuesTSList (props : List (String × PropVal)) : List EnumValueData :=
  mapWithIndex sealFnTS 0 (evPairs props)

/-- TS `Enum.enumValuesFromObject`: mutates the member objects (visible
through `theEnum` as well), sets the INITIALIZED marker on
`values[0].constructor` when the array is non-empty, and returns the
array. -/
def enumValuesFromObjectTS (st : TSState) (e : EnumObj) :
    TSState × EnumObj × List EnumValueData :=
  let e' : EnumObj := { e with props := sealPropsTS 0 e.props }
  let values := enumValuesTSList e.props
  let st' : TSState :=
    match values with
    | [] => st
    | v :: _ => { st with sealedClasses := v.classId :: st.sealedClasses }
  (st', e', values)

/-- TS `initEnum` (the protected instance method followed by the private
static): sets `this.name = name`, throws `Duplicate name` if the registry
already has the name, otherwise extracts the values, freezes the array and
stores it.  `theEnum` itself is not frozen in this variant. -/
def initEnumTS (st : TSState) (e : EnumObj) (name : String) :
    TSState × EnumObj × Except EnumError Unit :=
  let e₁ : EnumObj := { e with name := some name }
  if (lookupReg st.registry e₁.name).isSome then
    (st, e₁, Except.error (EnumError.duplicateName e₁.name))
  else
    match enumValuesFromObjectTS st e₁ with
    | (st', e', values) =>
        ({ st' with registry := setReg st'.registry name values }, e', Except.ok ())

/-! ## ES5 variant -/

/-- Process-wide state of the ES5 variant: the `Enum.enumValues` map, the
INITIALIZED markers, and the per-constructor instance counter
`EnumValue.sizes`. -/
structure ES5State where
  registry : List (String × List EnumValueData)
  sealedClasses : List Nat
  sizes : List (Nat × Nat)
deriving Repr, DecidableEq

/-- Lookup in `EnumValue.sizes`, with the ES5 coercion
`var size = ...; if (!size) size = 0;` (undefined and 0 both give 0). -/
def getSize (sizes : List (Nat × Nat)) (c : Nat) : Nat :=
  ((sizes.find? (fun p => p.1 == c)).map (·.2)).getD 0

/-- Update of `EnumValue.sizes` (`Map.set` semantics). -/
def setSize (sizes : List (Nat × Nat)) (c : Nat) (n : Nat) : List (Nat × Nat) :=
  match sizes with
  | [] => [(c, n)]
  | (k, v) :: rest => if k == c then (c, n) :: rest else (k, v) :: setSize rest c n

/-- ES5 `EnumValue` constructor: throws if the class carries the marker;
otherwise assigns `_ordinal` from the per-constructor counter and
increments the counter. -/
def mkEnumValueES5 (st : ES5State) (c : Nat) (desc : String) :
    ES5State × Except EnumError EnumValueData :=
  if c ∈ st.sealedClasses then (st, Except.error EnumError.illegalInstantiation)
  else
    let size := getSize st.sizes c
    ({ st with sizes := setSize st.sizes c (size + 1) },
     Except.ok ⟨c, desc, some size, none, false⟩)

/-- In-place effect of ES5 `enumValuesFromObject`: each discovered member
gets `_propName` and is frozen; `_ordinal` is NOT touched (it keeps the
construction-time counter value). -/
def sealPropsES5 : List (String × PropVal) → List (String × PropVal)
  | [] => []
  | (k, PropVal.ev v) :: rest =>
      (k, PropVal.ev { v with propName := some k, frozen := true }) :: sealPropsES5 rest
  | (k, PropVal.other) :: rest => (k, PropVal.other) :: sealPropsES5 rest

/-- The array produced by ES5 `enumValuesFromObject`. -/
def enumValuesES5List (props : List (String × PropVal)) : List EnumValueData :=
  (evPairs props).map (fun p => { p.2 with propName := some p.1, frozen := true })

/-- Position of the first occurrence of `v` in `xs`
(`Array.prototype.indexOf`, with `xs.length` standing for -1). -/
def indexOfStr (xs : List String) (v : String) : Nat :=
  match xs with
  | [] => 0
  | x :: rest => if x == v then 0 else indexOfStr rest v + 1

/-- ES5 `Enum.unique`: keep the elements whose first occurrence is at
their own position
(`values.filter(function (value, i) { return values.indexOf(value) === i; })`). -/
def uniqueJS (xs : List String) : List String :=
  (mapWithIndex (fun i v => (i, v)) 0 xs).filter
    (fun p => indexOfStr xs p.2 == p.1) |>.map (·.2)

/-- ES5 `Enum.enumValuesFromObject`: sets `_propName`, freezes each member,
flips the marker on `values[0].constructor`, and only then throws if the
descriptions are not pairwise distinct — the mutations survive the throw. -/
def enumValuesFromObjectES5 (st : ES5State) (e : EnumObj) :
    ES5State × EnumObj × Except EnumError (List EnumValueData) :=
  let e' : EnumObj := { e with props := sealPropsES5 e.props }
  let values := enumValuesES5List e.props
  let st' : ES5State :=
    match values with
    | [] => st
    | v :: _ => { st with sealedClasses := v.classId :: st.sealedClasses }
  let descriptions := values.map (·.description)
  if values.length ≠ (uniqueJS descriptions).length then
    (st', e', Except.error (EnumError.duplicateDescription e.name))
  else
    (st', e', Except.ok values)

/-- ES5 `initEnum`: sets `this.name` — which, the module being strict-mode
code, throws a TypeError when `theEnum` was frozen by a previous sealing —
then throws `Duplicate name` if the name is registered, otherwise extracts
the values (which may itself throw after mutating), freezes `theEnum`, and
stores the array. -/
def initEnumES5 (st : ES5State) (e : EnumObj) (name : String) :
    ES5State × EnumObj × Except EnumError Unit :=
  if e.frozen then
    (st, e, Except.error EnumError.typeError)
  else
  let e₁ : EnumObj := { e with name := some name }
  if (lookupReg st.registry e₁.name).isSome then
    (st, e₁, Except.error (EnumError.duplicateName e₁.name))
  else
    match enumValuesFromObjectES5 st e₁ with
    | (st', e', Except.error err) => (st', e', Except.error err)
    | (st', e', Except.ok values) =>
        ({ st' with registry := setReg st'.registry name values },
         { e' with frozen := true }, Except.ok ())

/-! ## Accessors (same logic in both variants; the TS copy is
`[...values]`, the ES5 copy is `values.slice()` — in this pure model the
copy is the identity on contents, aliasing is treated in the store model
below) -/

/-- The `values` getter: `Enum.values(this.name)`, i.e. a copy of the
registered array, or `[]` when the name is absent (in particular when
`this.name` is still undefined). -/
def valuesAccessor (reg : List (String × List EnumValueData)) (e : EnumObj) :
    List EnumValueData :=
  match lookupReg reg e.name with
  | some vs => vs
  | none => []

/-- The predicate of `byPropName`: `x.propName === propName` (an undefined
`_propName` is equal to no string). -/
def propNameMatches (p : String) (x : EnumValueData) : Bool :=
  x.propName == some p

/-- The predicate of `byDescription`: `x.description === description`. -/
def descriptionMatches (d : String) (x : EnumValueData) : Bool :=
  x.description == d

/-- `byPropName`: `this.values.find(x => x.propName === propName)`. -/
def byPropName (reg : List (String × List EnumValueData)) (e : EnumObj)
    (p : String) : Option EnumValueData :=
  (valuesAccessor reg e).find? (propNameMatches p)

/-- `byDescription`: `this.values.find(x => x.description === description)`. -/
def byDescription (reg : List (String × List EnumValueData)) (e : EnumObj)
    (d : String) : Option EnumValueData :=
  (valuesAccessor reg e).find? (descriptionMatches d)

/-- ES5 `Enum.prototype.toString`: returns `this.name`. -/
def toStringES5 (e : EnumObj) : Option String :=
  e.name

/-- The TS `Enum` class defines no `toString`, so a call falls through to
`Object.prototype.toString`, which on a plain class instance yields the
string "[object Object]" regardless of the object. -/
def toStringTS (_e : EnumObj) : String :=
  "[object Object]"

/-! ## Store model of the `values` accessor

JavaScript arrays are heap references; `Enum.enumValues` stores a
reference, and the `values` getter hands out `values.slice()` — a freshly
allocated copy.  To state the defensive-copy property (mutating the
returned array must not reach the registry) the heap is made explicit:
cells hold array contents, the registry maps a name to a cell reference,
and `values.slice()` allocates a new cell with the same contents. -/

namespace Store

/-- Heap plus registry: `cells` are the allocated arrays, `registry` is
`Enum.enumValues` holding references into the heap. -/
structure St where
  cells : List (List EnumValueData)
  registry : List (String × Nat)
deriving Repr, DecidableEq

/-- Dereference an array: read the contents of cell `r`. -/
def readCell (s : St) (r : Nat) : List EnumValueData :=
  (s.cells[r]?).getD []

/-- Mutate the array behind reference `r` in place. -/
def writeCell (s : St) (r : Nat) (vs : List EnumValueData) : St :=
  { s with cells := s.cells.set r vs }

/-- Allocate a fresh array with contents `vs`; returns its reference. -/
def alloc (s : St) (vs : List EnumValueData) : St × Nat :=
  ({ s with cells := s.cells ++ [vs] }, s.cells.length)

/-- Registry lookup by the enum's `name` field. -/
def lookupRef (s : St) : Option String → Option Nat
  | none => none
  | some n => (s.registry.find? (fun p => p.1 == n)).map (·.2)

/-- The `values` getter in the store model:
`values ? values.slice() : []` — either way a fresh array is allocated
and its reference returned. -/
def valuesCall (s : St) (name : Option String) : St × Nat :=
  match lookupRef s name with
  | some r => alloc s (readCell s r)
  | none => alloc s []

end Store


/-- Decidable equality of results, so concrete runs can be checked by
`decide`. -/
instance {ε α : Type} [DecidableEq ε] [DecidableEq α] :
    DecidableEq (Except ε α) := fun a b =>
  match a, b with
  | Except.ok x, Except.ok y =>
      if h : x = y then isTrue (by rw [h]) else isFalse (by intro hc; cases hc; exact h rfl)
  | Except.error x, Except.error y =>
      if h : x = y then isTrue (by rw [h]) else isFalse (by intro hc; cases hc; exact h rfl)
  | Except.ok _, Except.error _ => isFalse (by intro hc; cases hc)
  | Except.error _, Except.ok _ => isFalse (by intro hc; cases hc)

/-! ## Concrete test fixtures

Small concrete enum objects and states used to instantiate the theorems
below and to exhibit counterexamples. -/

/-- Empty TS process state (no registrations, no markers). -/
def stTSEmpty : TSState := ⟨[], []⟩

/-- Empty ES5 process state (no registrations, no markers, no counters). -/
def stES5Empty : ES5State := ⟨[], [], []⟩

/-- A Season-like TS enum object before sealing: four members of one
concrete class (class id 1), `_ordinal` and `_propName` still undefined. -/
def seasonTS : EnumObj :=
  ⟨[("SPRING", PropVal.ev ⟨1, "Spring", none, none, false⟩),
    ("SUMMER", PropVal.ev ⟨1, "Summer", none, none, false⟩),
    ("FALL", PropVal.ev ⟨1, "Fall", none, none, false⟩),
    ("WINTER", PropVal.ev ⟨1, "Winter", none, none, false⟩)], none, false⟩

/-- ES5 state after constructing two instances of class 5 (counter at 2). -/
def c1StES5 : ES5State := ⟨[], [], [(5, 2)]⟩

/-- ES5 enum object whose properties hold the two class-5 instances in the
opposite of their construction order: property "A" holds the second-built
instance (ordinal 1), property "B" the first-built one (ordinal 0). -/
def c1EnumES5 : EnumObj :=
  ⟨[("A", PropVal.ev ⟨5, "b", some 1, none, false⟩),
    ("B", PropVal.ev ⟨5, "a", some 0, none, false⟩)], none, false⟩

/-- TS enum object with two members sharing one description. -/
def dupDescTS : EnumObj :=
  ⟨[("A", PropVal.ev ⟨2, "same", none, none, false⟩),
    ("B", PropVal.ev ⟨2, "same", none, none, false⟩)], none, false⟩

/-- ES5 enum object with two members (class 7) sharing one description. -/
def dupDescES5 : EnumObj :=
  ⟨[("A", PropVal.ev ⟨7, "same", some 0, none, false⟩),
    ("B", PropVal.ev ⟨7, "same", some 1, none, false⟩)], none, false⟩

/-- TS enum object whose two members belong to two different concrete
`EnumValue` subclasses (class ids 1 and 2). -/
def twoClassTS : EnumObj :=
  ⟨[("A", PropVal.ev ⟨1, "a", none, none, false⟩),
    ("B", PropVal.ev ⟨2, "b", none, none, false⟩)], none, false⟩

/-- A store (heap model) holding one registered array under "Season". -/
def storeSeason : Store.St :=
  ⟨[[⟨1, "Spring", some 0, some "SPRING", true⟩]], [("Season", 0)]⟩

/-- The Season members as the TS sealing stores them: ordinals 0..3 in
discovery order, property names set, frozen. -/
def seasonValsSealed : List EnumValueData :=
  [⟨1, "Spring", some 0, some "SPRING", true⟩,
   ⟨1, "Summer", some 1, some "SUMMER", true⟩,
   ⟨1, "Fall", some 2, some "FALL", true⟩,
   ⟨1, "Winter", some 3, some "WINTER", true⟩]

/-- A registry holding the sealed Season members under "Season". -/
def regSeason : List (String × List EnumValueData) := [("Season", seasonValsSealed)]

/-- An enum object named "Season" (the accessors only consult `name`). -/
def namedSeasonObj : EnumObj := ⟨[], some "Season", false⟩

/-- A small ES5 Season-like enum whose construction order matches its
discovery order (class 9), ready to seal successfully. -/
def seasonES5 : EnumObj :=
  ⟨[("SPRING", PropVal.ev ⟨9, "Spring", some 0, none, false⟩),
    ("SUMMER", PropVal.ev ⟨9, "Summer", some 1, none, false⟩)], none, false⟩

/-! ## Helper lemmas -/

theorem mapWithIndex_length (f : Nat → α → β) :
    ∀ (i : Nat) (l : List α), (mapWithIndex f i l).length = l.length
  | _, [] => rfl
  | i, _ :: xs => congrArg Nat.succ (mapWithIndex_length f (i + 1) xs)

theorem mapWithIndex_sealFnTS_ordinal :
    ∀ (i : Nat) (l : List (String × EnumValueData)),
      (mapWithIndex sealFnTS i l).map EnumValueData.ordinal =
        (List.range' i l.length).map some := by
  intro i l
  induction l generalizing i with
  | nil => rfl
  | cons p rest ih =>
      simp [mapWithIndex, List.range'_succ, sealFnTS, ih]

theorem mapWithIndex_sealFnTS_propName :
    ∀ (i : Nat) (l : List (String × EnumValueData)),
      (mapWithIndex sealFnTS i l).map EnumValueData.propName =
        l.map (fun p => some p.1) := by
  intro i l
  induction l generalizing i with
  | nil => rfl
  | cons p rest ih => simp [mapWithIndex, sealFnTS, ih]

theorem mapWithIndex_sealFnTS_frozen :
    ∀ (i : Nat) (l : List (String × EnumValueData)),
      ∀ v ∈ mapWithIndex sealFnTS i l, v.frozen = true := by
  intro i l
  induction l generalizing i with
  | nil => intro v hv; cases hv
  | cons p rest ih =>
      intro v hv
      rcases List.mem_cons.mp hv with rfl | hv
      · rfl
      · exact ih (i + 1) v hv

theorem enumValuesES5List_frozen (props : List (String × PropVal)) :
    ∀ v ∈ enumValuesES5List props, v.frozen = true := by
  intro v hv
  rcases List.mem_map.mp hv with ⟨p, _, rfl⟩
  rfl

theorem enumValuesES5List_descriptions (props : List (String × PropVal)) :
    (enumValuesES5List props).map EnumValueData.description =
      (evPairs props).map (fun p => p.2.description) := by
  simp [enumValuesES5List, List.map_map]

theorem lookupReg_setReg_self (reg : List (String × List EnumValueData))
    (s : String) (vs : List EnumValueData) :
    lookupReg (setReg reg s vs) (some s) = some vs := by
  induction reg with
  | nil => simp [setReg, lookupReg, List.find?]
  | cons p rest ih =>
      by_cases h : p.1 = s
      · simp [setReg, lookupReg, List.find?, h]
      · simp only [setReg, lookupReg] at *
        rcases p with ⟨k, v⟩
        simp only at h
        simp [List.find?, h, ih]

theorem indexOfStr_le (xs : List String) (i : Nat) (h : i < xs.length) :
    indexOfStr xs xs[i] ≤ i := by
  induction xs generalizing i with
  | nil => exact absurd h (Nat.not_lt_zero i)
  | cons x rest ih =>
      cases i with
      | zero => simp [indexOfStr]
      | succ j =>
          have hj : j < rest.length := Nat.lt_of_succ_lt_succ h
          by_cases hx : (x == rest[j]) = true
          · simp [indexOfStr, hx]
          · simp only [List.getElem_cons_succ, indexOfStr,
              Bool.not_eq_true] at hx ⊢
            rw [hx]
            simpa using Nat.succ_le_succ (ih j hj)

theorem pair_mem_mapWithIndex :
    ∀ (xs : List String) (i j : Nat) (h : j < xs.length),
      (i + j, xs[j]) ∈ mapWithIndex (fun k v => (k, v)) i xs := by
  intro xs
  induction xs with
  | nil => intro i j h; exact absurd h (Nat.not_lt_zero j)
  | cons x rest ih =>
      intro i j h
      cases j with
      | zero => simp [mapWithIndex]
      | succ k =>
          have hk : k < rest.length := Nat.lt_of_succ_lt_succ h
          have hm := ih (i + 1) k hk
          have he : i + (k + 1) = (i + 1) + k := by omega
          simp only [List.getElem_cons_succ, mapWithIndex]
          refine List.mem_cons.mpr (Or.inr ?_)
          rw [he]
          exact hm

theorem length_filter_lt_of_mem_false (q : α → Bool) :
    ∀ (l : List α) (a : α), a ∈ l → q a = false → (l.filter q).length < l.length := by
  intro l
  induction l with
  | nil => intro a ha; cases ha
  | cons x xs ih =>
      intro a ha hq
      rcases List.mem_cons.mp ha with rfl | ha
      · simp only [List.filter_cons, hq, if_neg Bool.false_ne_true]
        exact Nat.lt_succ_of_le (List.length_filter_le q xs)
      · cases hqx : q x
        · simp only [List.filter_cons, hqx, if_neg Bool.false_ne_true]
          exact Nat.lt_succ_of_lt (ih a ha hq)
        · simp only [List.filter_cons, hqx, if_pos rfl, List.length_cons]
          exact Nat.succ_lt_succ (ih a ha hq)

theorem uniqueJS_length_lt (xs : List String) (h : ¬ xs.Nodup) :
    (uniqueJS xs).length < xs.length := by
  have key : ∀ (i j : Fin xs.length), i.1 < j.1 → xs.get i = xs.get j →
      (uniqueJS xs).length < xs.length := by
    intro i j hlt heq
    have hmem := pair_mem_mapWithIndex xs 0 j.1 j.2
    have hle : indexOfStr xs xs[j.1] ≤ i.1 := by
      have hgi := indexOfStr_le xs i.1 i.2
      have : xs[i.1] = xs[j.1] := by
        simpa [List.get_eq_getElem] using heq
      rw [← this]
      exact hgi
    have hq : ((fun p => indexOfStr xs p.2 == p.1) ((0 + j.1, xs[j.1]) : Nat × String))
        = false := by
      simp only
      have hne : indexOfStr xs xs[j.1] ≠ 0 + j.1 := by omega
      simpa using hne
    have hlen : (uniqueJS xs).length =
        ((mapWithIndex (fun k v => (k, v)) 0 xs).filter
          (fun p => indexOfStr xs p.2 == p.1)).length := by
      simp [uniqueJS]
    rw [hlen]
    calc ((mapWithIndex (fun k v => (k, v)) 0 xs).filter
          (fun p => indexOfStr xs p.2 == p.1)).length
        < (mapWithIndex (fun k v => (k, v)) 0 xs).length :=
          length_filter_lt_of_mem_false _ _ _ hmem hq
      _ = xs.length := mapWithIndex_length _ 0 xs
  have hinj : ¬ Function.Injective xs.get := by
    intro hinj
    exact h (List.nodup_iff_injective_get.mpr hinj)
  unfold Function.Injective at hinj
  push_neg at hinj
  obtain ⟨a, b, hab, hne⟩ := hinj
  rcases Nat.lt_trichotomy a.1 b.1 with hlt | heq | hgt
  · exact key a b hlt hab
  · exact absurd (Fin.ext heq) hne
  · exact key b a hgt hab.symm

theorem find?_append_first (q : α → Bool) :
    ∀ (l1 : List α) (v : α) (l2 : List α),
      (∀ u ∈ l1, q u = false) → q v = true →
      (l1 ++ v :: l2).find? q = some v := by
  intro l1
  induction l1 with
  | nil => intro v l2 _ hv; simp [List.find?, hv]
  | cons x xs ih =>
      intro v l2 hall hv
      have hx : q x = false := hall x (List.mem_cons_self x xs)
      simp only [List.cons_append, List.find?, hx]
      exact ih v l2 (fun u hu => hall u (List.mem_cons_of_mem x hu)) hv

/-! ## Claims -/

/-- C3 counterexample: after a first successful ES5 sealing of the Season
enum the container is frozen, so a second `initEnum` on that SAME instance
throws the strict-mode TypeError at `this.name = name` — not the
duplicate-name error the claim states — while leaving the state
unchanged. -/
theorem claim_C3_counterexample :
    (initEnumES5 stES5Empty seasonES5 "Season").2.2 = Except.ok () ∧
    (initEnumES5 stES5Empty seasonES5 "Season").2.1.frozen = true ∧
    initEnumES5 (initEnumES5 stES5Empty seasonES5 "Season").1
        (initEnumES5 stES5Empty seasonES5 "Season").2.1 "Season" =
      ((initEnumES5 stES5Empty seasonES5 "Season").1,
        (initEnumES5 stES5Empty seasonES5 "Season").2.1,
        Except.error EnumError.typeError) := by
  decide

/-- C3 (amended): if `initEnum` has already succeeded for a registration
name (the registry maps `n` to `vs`), then a second `initEnum` call with
that name fails, leaves the process state unchanged, and the registry
still maps `n` to exactly the first sealing's sequence `vs`.  In the TS
variant (any instance) and in the ES5 variant on a different, unfrozen
instance the failure is the duplicate-name error; in the ES5 variant on
the same already-sealed instance — frozen by the first sealing — the
failure is instead the strict-mode TypeError raised by the `name`
assignment, before the duplicate-name check is reached. -/
theorem claim_C3_duplicate_registration
    (n : String) (vs : List EnumValueData)
    (stT : TSState) (eT : EnumObj) (hT : lookupReg stT.registry (some n) = some vs)
    (stE : ES5State) (eE : EnumObj) (hE : lookupReg stE.registry (some n) = some vs) :
    initEnumTS stT eT n =
      (stT, { eT with name := some n },
        Except.error (EnumError.duplicateName (some n))) ∧
    lookupReg (initEnumTS stT eT n).1.registry (some n) = some vs ∧
    (eE.frozen = false →
      initEnumES5 stE eE n =
        (stE, { eE with name := some n },
          Except.error (EnumError.duplicateName (some n)))) ∧
    (eE.frozen = true →
      initEnumES5 stE eE n = (stE, eE, Except.error EnumError.typeError)) ∧
    lookupReg (initEnumES5 stE eE n).1.registry (some n) = some vs := by
  have hT' : (lookupReg stT.registry (some n)).isSome = true := by
    rw [hT]; rfl
  have hE' : (lookupReg stE.registry (some n)).isSome = true := by
    rw [hE]; rfl
  refine ⟨?_, ?_, ?_, ?_, ?_⟩
  · simp [initEnumTS, hT']
  · simp [initEnumTS, hT', hT]
  · intro hf
    simp [initEnumES5, hf, hE']
  · intro hf
    simp [initEnumES5, hf]
  · cases hf : eE.frozen
    · simp [initEnumES5, hf, hE', hE]
    · simp [initEnumES5, hf, hE]

/-- Witness for C3 at a concrete state whose registry already holds
"Season", with both an unfrozen and a frozen (already sealed) ES5
instance. -/
theorem claim_C3_witness :
    initEnumTS ⟨[("Season", [])], []⟩ ⟨[], none, false⟩ "Season" =
      (⟨[("Season", [])], []⟩, ⟨[], some "Season", false⟩,
        Except.error (EnumError.duplicateName (some "Season"))) ∧
    initEnumES5 ⟨[("Season", [])], [], []⟩ ⟨[], none, false⟩ "Season" =
      (⟨[("Season", [])], [], []⟩, ⟨[], some "Season", false⟩,
        Except.error (EnumError.duplicateName (some "Season"))) ∧
    initEnumES5 ⟨[("Season", [])], [], []⟩ ⟨[], some "Season", true⟩ "Season" =
      (⟨[("Season", [])], [], []⟩, ⟨[], some "Season", true⟩,
        Except.error EnumError.typeError) := by
  have h1 := claim_C3_duplicate_registration "Season" []
    ⟨[("Season", [])], []⟩ ⟨[], none, false⟩ (by decide)
    ⟨[("Season", [])], [], []⟩ ⟨[], none, false⟩ (by decide)
  have h2 := claim_C3_duplicate_registration "Season" []
    ⟨[("Season", [])], []⟩ ⟨[], none, false⟩ (by decide)
    ⟨[("Season", [])], [], []⟩ ⟨[], some "Season", true⟩ (by decide)
  exact ⟨h1.1, h1.2.2.1 rfl, h2.2.2.2.1 rfl⟩

theorem enumValuesFromObjectES5_registry (st : ES5State) (e : EnumObj) :
    (enumValuesFromObjectES5 st e).1.registry = st.registry := by
  simp only [enumValuesFromObjectES5]
  cases hv : enumValuesES5List e.props <;> split <;> rfl

theorem enumValuesFromObjectES5_error (st : ES5State) (e : EnumObj)
    (st' : ES5State) (e' : EnumObj) (err : EnumError)
    (h : enumValuesFromObjectES5 st e = (st', e', Except.error err)) :
    err = EnumError.duplicateDescription e.name := by
  simp only [enumValuesFromObjectES5] at h
  split at h
  · simp only [Prod.mk.injEq, Except.error.injEq] at h
    exact h.2.2.symm
  · simp only [Prod.mk.injEq] at h
    exact absurd h.2.2 (by simp)

/-- C4 counterexample: sealing an ES5 enum with two identical descriptions
fails, yet the failed call flips the sealed marker for class 7 and freezes
(and renames) the members in place — the claim as stated says markers and
members are left as they were. -/
theorem claim_C4_counterexample :
    (initEnumES5 stES5Empty dupDescES5 "Dup").2.2 =
      Except.error (EnumError.duplicateDescription (some "Dup")) ∧
    (initEnumES5 stES5Empty dupDescES5 "Dup").1.sealedClasses = [7] ∧
    stES5Empty.sealedClasses = [] ∧
    (evPairs (initEnumES5 stES5Empty dupDescES5 "Dup").2.1.props).map
      (fun p => p.2.frozen) = [true, true] ∧
    (evPairs dupDescES5.props).map (fun p => p.2.frozen) = [false, false] := by
  decide

/-- C4 (amended): every failing `initEnum` call, in either variant, leaves
the registry unchanged; a duplicate-name failure leaves the entire state
untouched in both variants (and touches the enum object only through the
`name` assignment), as does every failure of the TS variant; but in the
ES5 variant a duplicate-description failure can still freeze members and
flip the sealed marker before throwing. -/
theorem claim_C4_atomicity :
    (∀ (st : TSState) (e : EnumObj) (n : String) st' e' err,
      initEnumTS st e n = (st', e', Except.error err) →
      st' = st ∧ e' = { e with name := some n }) ∧
    (∀ (st : ES5State) (e : EnumObj) (n : String) st' e' err,
      initEnumES5 st e n = (st', e', Except.error err) →
      st'.registry = st.registry ∧
      (err = EnumError.duplicateName (some n) →
        st' = st ∧ e' = { e with name := some n })) := by
  constructor
  · intro st e n st' e' err h
    simp only [initEnumTS] at h
    split at h
    · simp only [Prod.mk.injEq] at h
      exact ⟨h.1.symm, h.2.1.symm⟩
    · simp only [enumValuesFromObjectTS, Prod.mk.injEq] at h
      exact absurd h.2.2 (by simp)
  · intro st e n st' e' err h
    simp only [initEnumES5] at h
    split at h
    · simp only [Prod.mk.injEq, Except.error.injEq] at h
      obtain ⟨h1, h2, h3⟩ := h
      refine ⟨by rw [← h1], fun hname => ?_⟩
      exact absurd (h3.trans hname) (by simp)
    · split at h
      · simp only [Prod.mk.injEq, Except.error.injEq] at h
        obtain ⟨h1, h2, h3⟩ := h
        exact ⟨by rw [← h1], fun _ => ⟨h1.symm, h2.symm⟩⟩
      · rename_i hcond
        split at h
        · rename_i st'' e'' err' heq
          simp only [Prod.mk.injEq, Except.error.injEq] at h
          obtain ⟨h1, h2, h3⟩ := h
          have hr := enumValuesFromObjectES5_registry st { e with name := some n }
          rw [heq] at hr
          refine ⟨by rw [← h1]; exact hr, fun hname => ?_⟩
          have herr := enumValuesFromObjectES5_error st { e with name := some n }
            st'' e'' err' heq
          rw [h3, hname] at herr
          exact absurd herr (by simp)
        · simp only [Prod.mk.injEq] at h
          exact absurd h.2.2 (by simp)

/-- Witness for C4 at concrete duplicate-name failures of both
variants. -/
theorem claim_C4_witness :
    ((⟨[("S", [])], []⟩ : TSState) = ⟨[("S", [])], []⟩ ∧
      (⟨[], some "S", false⟩ : EnumObj) =
        { (⟨[], none, false⟩ : EnumObj) with name := some "S" }) ∧
    (⟨[("S", [])], [], []⟩ : ES5State).registry =
      (⟨[("S", [])], [], []⟩ : ES5State).registry ∧
    ((⟨[("S", [])], [], []⟩ : ES5State) = ⟨[("S", [])], [], []⟩ ∧
      (⟨[], some "S", false⟩ : EnumObj) =
        { (⟨[], none, false⟩ : EnumObj) with name := some "S" }) := by
  have h1 := claim_C4_atomicity.1 ⟨[("S", [])], []⟩ ⟨[], none, false⟩ "S"
    ⟨[("S", [])], []⟩ ⟨[], some "S", false⟩
    (EnumError.duplicateName (some "S")) (by decide)
  have h2 := claim_C4_atomicity.2 ⟨[("S", [])], [], []⟩ ⟨[], none, false⟩ "S"
    ⟨[("S", [])], [], []⟩ ⟨[], some "S", false⟩
    (EnumError.duplicateName (some "S")) (by decide)
  exact ⟨h1, h2.1, h2.2 rfl⟩

theorem initEnumTS_ok (st : TSState) (e : EnumObj) (n : String)
    (st' : TSState) (e' : EnumObj)
    (h : initEnumTS st e n = (st', e', Except.ok ())) :
    lookupReg st.registry (some n) = none ∧
    st'.registry = setReg st.registry n (enumValuesTSList e.props) ∧
    e' = { e with name := some n, props := sealPropsTS 0 e.props } ∧
    st'.sealedClasses = (match enumValuesTSList e.props with
      | [] => st.sealedClasses
      | v :: _ => v.classId :: st.sealedClasses) := by
  simp only [initEnumTS] at h
  split at h
  · exact absurd h (by simp)
  · rename_i hcond
    simp only [enumValuesFromObjectTS, Prod.mk.injEq] at h
    obtain ⟨h1, h2, -⟩ := h
    refine ⟨Option.not_isSome_iff_eq_none.mp (by exact hcond), ?_, h2.symm, ?_⟩ <;>
      cases hv : enumValuesTSList e.props <;> rw [hv] at h1 <;> rw [← h1]

theorem enumValuesFromObjectES5_ok (st : ES5State) (e : EnumObj)
    (st' : ES5State) (e' : EnumObj) (vs : List EnumValueData)
    (h : enumValuesFromObjectES5 st e = (st', e', Except.ok vs)) :
    vs = enumValuesES5List e.props ∧
    st'.registry = st.registry ∧
    st'.sizes = st.sizes ∧
    e' = { e with props := sealPropsES5 e.props } ∧
    st'.sealedClasses = (match enumValuesES5List e.props with
      | [] => st.sealedClasses
      | v :: _ => v.classId :: st.sealedClasses) := by
  simp only [enumValuesFromObjectES5] at h
  split at h
  · exact absurd h (by simp)
  · simp only [Prod.mk.injEq, Except.ok.injEq] at h
    obtain ⟨h1, h2, h3⟩ := h
    refine ⟨h3.symm, ?_, ?_, h2.symm, ?_⟩ <;>
      cases hv : enumValuesES5List e.props <;> rw [hv] at h1 <;> rw [← h1]

theorem initEnumES5_ok (st : ES5State) (e : EnumObj) (n : String)
    (st' : ES5State) (e' : EnumObj)
    (h : initEnumES5 st e n = (st', e', Except.ok ())) :
    lookupReg st.registry (some n) = none ∧
    st'.registry = setReg st.registry n (enumValuesES5List e.props) ∧
    e' = { e with name := some n, props := sealPropsES5 e.props, frozen := true } ∧
    st'.sealedClasses = (match enumValuesES5List e.props with
      | [] => st.sealedClasses
      | v :: _ => v.classId :: st.sealedClasses) := by
  simp only [initEnumES5] at h
  split at h
  · exact absurd h (by simp)
  split at h
  · exact absurd h (by simp)
  · rename_i hcond
    split at h
    · exact absurd h (by simp)
    · rename_i stm em vsm heq
      obtain ⟨hvs, hreg, hsizes, hem, hsealed⟩ :=
        enumValuesFromObjectES5_ok st { e with name := some n } stm em vsm heq
      simp only [Prod.mk.injEq] at h
      obtain ⟨h1, h2, -⟩ := h
      refine ⟨Option.not_isSome_iff_eq_none.mp (by exact hcond), ?_, ?_, ?_⟩
      · rw [← h1]
        simp only [hreg, hvs]
      · rw [← h2, hem]
      · rw [← h1]
        simpa using hsealed

/-- C1 counterexample: two ES5 instances of class 5 are constructed
(ordinals 0 then 1 by the per-class counter) and attached in the opposite
order; sealing succeeds and the registered sequence carries ordinals
[1, 0], not 0..n-1 in discovery order as the claim states. -/
theorem claim_C1_counterexample :
    mkEnumValueES5 stES5Empty 5 "a" =
      (⟨[], [], [(5, 1)]⟩, Except.ok ⟨5, "a", some 0, none, false⟩) ∧
    mkEnumValueES5 ⟨[], [], [(5, 1)]⟩ 5 "b" =
      (c1StES5, Except.ok ⟨5, "b", some 1, none, false⟩) ∧
    (initEnumES5 c1StES5 c1EnumES5 "E").2.2 = Except.ok () ∧
    (lookupReg (initEnumES5 c1StES5 c1EnumES5 "E").1.registry (some "E")).map
      (List.map EnumValueData.ordinal) = some [some 1, some 0] := by
  decide

/-- C1 (amended): in the TS variant a successful `initEnum` registers one
entry per discovered ValueKind property, with ordinals exactly 0..n-1 in
discovery order and property names equal to the discovery-order keys; in
the ES5 variant the ordinal is fixed at construction time as the
per-class instance counter, which need not match discovery order. -/
theorem claim_C1_ordinals
    (st : TSState) (e : EnumObj) (n : String) (st' : TSState) (e' : EnumObj)
    (h : initEnumTS st e n = (st', e', Except.ok ()))
    (stE : ES5State) (c : Nat) (d : String) (hc : c ∉ stE.sealedClasses) :
    (∃ vs, lookupReg st'.registry (some n) = some vs ∧
      vs.length = (evPairs e.props).length ∧
      vs.map EnumValueData.ordinal = (List.range vs.length).map some ∧
      vs.map EnumValueData.propName = (evPairs e.props).map (fun p => some p.1)) ∧
    (mkEnumValueES5 stE c d).2 =
      Except.ok ⟨c, d, some (getSize stE.sizes c), none, false⟩ := by
  obtain ⟨-, hreg, -, -⟩ := initEnumTS_ok st e n st' e' h
  constructor
  · refine ⟨enumValuesTSList e.props, ?_, ?_, ?_, ?_⟩
    · rw [hreg]
      exact lookupReg_setReg_self _ _ _
    · simp [enumValuesTSList, mapWithIndex_length]
    · show (enumValuesTSList e.props).map EnumValueData.ordinal =
        (List.range (enumValuesTSList e.props).length).map some
      rw [enumValuesTSList, mapWithIndex_sealFnTS_ordinal, mapWithIndex_length,
        List.range_eq_range']
    · rw [enumValuesTSList]
      exact mapWithIndex_sealFnTS_propName 0 _
  · simp [mkEnumValueES5, hc]

/-- Witness for C1 at the concrete Season enum. -/
theorem claim_C1_witness :
    (∃ vs, lookupReg (initEnumTS stTSEmpty seasonTS "Season").1.registry
        (some "Season") = some vs ∧
      vs.length = (evPairs seasonTS.props).length ∧
      vs.map EnumValueData.ordinal = (List.range vs.length).map some ∧
      vs.map EnumValueData.propName =
        (evPairs seasonTS.props).map (fun p => some p.1)) ∧
    (mkEnumValueES5 stES5Empty 1 "Spring").2 =
      Except.ok ⟨1, "Spring", some (getSize stES5Empty.sizes 1), none, false⟩ :=
  claim_C1_ordinals stTSEmpty seasonTS "Season"
    (initEnumTS stTSEmpty seasonTS "Season").1
    (initEnumTS stTSEmpty seasonTS "Season").2.1
    (by decide) stES5Empty 1 "Spring" (by decide)

theorem enumValuesFromObjectES5_dup (st : ES5State) (e : EnumObj)
    (hlen : (enumValuesES5List e.props).length ≠
      (uniqueJS ((enumValuesES5List e.props).map EnumValueData.description)).length) :
    (enumValuesFromObjectES5 st e).2.2 =
      Except.error (EnumError.duplicateDescription e.name) := by
  simp only [enumValuesFromObjectES5]
  split
  · rfl
  · rename_i hcontra
    exact absurd hlen hcontra

theorem initEnumES5_dup (st : ES5State) (e : EnumObj) (n : String)
    (hfrozen : e.frozen = false)
    (hn : lookupReg st.registry (some n) = none)
    (hlen : (enumValuesES5List e.props).length ≠
      (uniqueJS ((enumValuesES5List e.props).map EnumValueData.description)).length) :
    (initEnumES5 st e n).2.2 =
      Except.error (EnumError.duplicateDescription (some n)) ∧
    (initEnumES5 st e n).1.registry = st.registry := by
  simp only [initEnumES5]
  split
  · rename_i hc
    rw [hfrozen] at hc
    cases hc
  split
  · rename_i hc
    have : (lookupReg st.registry (some n)).isSome = true := by exact hc
    rw [hn] at this
    cases this
  · split
    · rename_i st'' e'' err heq
      constructor
      · have hd := enumValuesFromObjectES5_dup st { e with name := some n } hlen
        rw [heq] at hd
        simpa using hd
      · have hr := enumValuesFromObjectES5_registry st { e with name := some n }
        rw [heq] at hr
        simpa using hr
    · rename_i st'' e'' vs heq
      have hd := enumValuesFromObjectES5_dup st { e with name := some n } hlen
      rw [heq] at hd
      simp at hd

/-- C2 counterexample: the TS variant performs no description-uniqueness
check — sealing an enum whose two members share the description "same"
succeeds and registers both values, while the claim states every such
`initEnum` call fails with nothing registered. -/
theorem claim_C2_counterexample :
    (initEnumTS stTSEmpty dupDescTS "Dup").2.2 = Except.ok () ∧
    (lookupReg (initEnumTS stTSEmpty dupDescTS "Dup").1.registry (some "Dup")).map
      (List.map EnumValueData.description) = some ["same", "same"] := by
  decide

/-- C2 (amended): in the ES5 variant, sealing a not-yet-frozen enum object
that has two or more ValueKind properties with identical descriptions
under an unregistered name fails with the duplicate-description error
naming the enum, and the registry is unchanged — in particular nothing is
registered under that name.  The TS variant performs no such check.  (A
frozen enum object — one already sealed — would fail earlier, at the
strict-mode `name` assignment.) -/
theorem claim_C2_duplicate_description
    (st : ES5State) (e : EnumObj) (n : String)
    (hfrozen : e.frozen = false)
    (hdup : ¬ ((evPairs e.props).map (fun p => p.2.description)).Nodup)
    (hn : lookupReg st.registry (some n) = none) :
    (initEnumES5 st e n).2.2 =
      Except.error (EnumError.duplicateDescription (some n)) ∧
    (initEnumES5 st e n).1.registry = st.registry ∧
    lookupReg (initEnumES5 st e n).1.registry (some n) = none := by
  have hdesc : ((enumValuesES5List e.props).map EnumValueData.description) =
      (evPairs e.props).map (fun p => p.2.description) :=
    enumValuesES5List_descriptions e.props
  have hlt := uniqueJS_length_lt _ (hdesc ▸ hdup)
  have hval : (enumValuesES5List e.props).length =
      ((enumValuesES5List e.props).map EnumValueData.description).length := by
    simp
  have hlen : (enumValuesES5List e.props).length ≠
      (uniqueJS ((enumValuesES5List e.props).map EnumValueData.description)).length := by
    omega
  obtain ⟨h1, h2⟩ := initEnumES5_dup st e n hfrozen hn hlen
  refine ⟨h1, h2, ?_⟩
  rw [h2]
  exact hn

/-- Witness for C2 at the concrete duplicate-description ES5 enum. -/
theorem claim_C2_witness :
    (initEnumES5 stES5Empty dupDescES5 "Dup").2.2 =
      Except.error (EnumError.duplicateDescription (some "Dup")) ∧
    (initEnumES5 stES5Empty dupDescES5 "Dup").1.registry = stES5Empty.registry ∧
    lookupReg (initEnumES5 stES5Empty dupDescES5 "Dup").1.registry
      (some "Dup") = none :=
  claim_C2_duplicate_description stES5Empty dupDescES5 "Dup" (by decide) (by decide)
    (by decide)

theorem Store.readCell_alloc (s : Store.St) (vs : List EnumValueData) :
    Store.readCell (Store.alloc s vs).1 (Store.alloc s vs).2 = vs := by
  simp [Store.readCell, Store.alloc]

theorem Store.readCell_alloc_old (s : Store.St) (vs : List EnumValueData)
    (r : Nat) (hr : r < s.cells.length) :
    Store.readCell (Store.alloc s vs).1 r = Store.readCell s r := by
  simp [Store.readCell, Store.alloc, List.getElem?_append_left hr]

theorem Store.readCell_write_ne (s : Store.St) (r1 r : Nat)
    (w : List EnumValueData) (hne : r1 ≠ r) :
    Store.readCell (Store.writeCell s r1 w) r = Store.readCell s r := by
  simp [Store.readCell, Store.writeCell, List.getElem?_set_ne hne]

/-- C5: the `values` accessor allocates and returns a fresh array — a
reference different from the registry's cell — holding a copy of the
registered contents; the registry is untouched by the call; and after any
mutation of the returned array, both the registry's cell and the array
returned by a subsequent `values` call still hold the original contents. -/
theorem claim_C5_defensive_copy
    (s : Store.St) (n : String) (r : Nat) (vs : List EnumValueData)
    (hreg : Store.lookupRef s (some n) = some r)
    (hr : r < s.cells.length)
    (hvs : Store.readCell s r = vs) :
    (Store.valuesCall s (some n)).2 ≠ r ∧
    Store.readCell (Store.valuesCall s (some n)).1
      (Store.valuesCall s (some n)).2 = vs ∧
    (Store.valuesCall s (some n)).1.registry = s.registry ∧
    ∀ w, Store.readCell (Store.writeCell (Store.valuesCall s (some n)).1
        (Store.valuesCall s (some n)).2 w) r = vs ∧
      Store.readCell
        (Store.valuesCall (Store.writeCell (Store.valuesCall s (some n)).1
          (Store.valuesCall s (some n)).2 w) (some n)).1
        (Store.valuesCall (Store.writeCell (Store.valuesCall s (some n)).1
          (Store.valuesCall s (some n)).2 w) (some n)).2 = vs := by
  have hcall : Store.valuesCall s (some n) = Store.alloc s vs := by
    simp [Store.valuesCall, hreg, hvs]
  have hne : (Store.alloc s vs).2 ≠ r := by
    simp only [Store.alloc]
    omega
  refine ⟨?_, ?_, ?_, ?_⟩
  · rw [hcall]
    exact hne
  · rw [hcall]
    exact Store.readCell_alloc s vs
  · rw [hcall]
    rfl
  · intro w
    have hread2 : Store.readCell (Store.writeCell (Store.alloc s vs).1
        (Store.alloc s vs).2 w) r = vs := by
      rw [Store.readCell_write_ne _ _ _ _ hne, Store.readCell_alloc_old s vs r hr]
      exact hvs
    have hlook2 : Store.lookupRef (Store.writeCell (Store.alloc s vs).1
        (Store.alloc s vs).2 w) (some n) = some r := by
      simpa [Store.lookupRef, Store.writeCell, Store.alloc] using hreg
    have hcall2 : Store.valuesCall (Store.writeCell (Store.alloc s vs).1
        (Store.alloc s vs).2 w) (some n) =
        Store.alloc (Store.writeCell (Store.alloc s vs).1 (Store.alloc s vs).2 w) vs := by
      simp [Store.valuesCall, hlook2, hread2]
    rw [hcall]
    exact ⟨hread2, by rw [hcall2]; exact Store.readCell_alloc _ vs⟩

/-- Witness for C5 at a one-entry store. -/
theorem claim_C5_witness :
    (Store.valuesCall storeSeason (some "Season")).2 ≠ 0 ∧
    Store.readCell (Store.valuesCall storeSeason (some "Season")).1
      (Store.valuesCall storeSeason (some "Season")).2 =
      [⟨1, "Spring", some 0, some "SPRING", true⟩] ∧
    (Store.valuesCall storeSeason (some "Season")).1.registry =
      storeSeason.registry ∧
    ∀ w, Store.readCell
        (Store.writeCell (Store.valuesCall storeSeason (some "Season")).1
          (Store.valuesCall storeSeason (some "Season")).2 w) 0 =
        [⟨1, "Spring", some 0, some "SPRING", true⟩] ∧
      Store.readCell
        (Store.valuesCall (Store.writeCell
          (Store.valuesCall storeSeason (some "Season")).1
          (Store.valuesCall storeSeason (some "Season")).2 w) (some "Season")).1
        (Store.valuesCall (Store.writeCell
          (Store.valuesCall storeSeason (some "Season")).1
          (Store.valuesCall storeSeason (some "Season")).2 w) (some "Season")).2 =
        [⟨1, "Spring", some 0, some "SPRING", true⟩] :=
  claim_C5_defensive_copy storeSeason "Season" 0
    [⟨1, "Spring", some 0, some "SPRING", true⟩]
    (by decide) (by decide) (by decide)

theorem evPairs_sealPropsTS_frozen :
    ∀ (i : Nat) (props : List (String × PropVal)),
      ∀ p ∈ evPairs (sealPropsTS i props), p.2.frozen = true := by
  intro i props
  induction props generalizing i with
  | nil => intro p hp; cases hp
  | cons q rest ih =>
      rcases q with ⟨k, pv⟩
      cases pv with
      | ev v =>
          intro p hp
          rcases List.mem_cons.mp hp with rfl | hp
          · rfl
          · exact ih (i + 1) p hp
      | other =>
          intro p hp
          exact ih i p hp

theorem evPairs_sealPropsES5_frozen :
    ∀ (props : List (String × PropVal)),
      ∀ p ∈ evPairs (sealPropsES5 props), p.2.frozen = true := by
  intro props
  induction props with
  | nil => intro p hp; cases hp
  | cons q rest ih =>
      rcases q with ⟨k, pv⟩
      cases pv with
      | ev v =>
          intro p hp
          rcases List.mem_cons.mp hp with rfl | hp
          · rfl
          · exact ih p hp
      | other =>
          intro p hp
          exact ih p hp

/-- C6 counterexample: a TS enum with members of two concrete classes
(ids 1 and 2) seals successfully, but only the class of the first
discovered member is closed — a fresh instance of class 2 can still be
constructed afterwards, although its owning enum has completed sealing. -/
theorem claim_C6_counterexample :
    (initEnumTS stTSEmpty twoClassTS "Two").2.2 = Except.ok () ∧
    mkEnumValueTS (initEnumTS stTSEmpty twoClassTS "Two").1 2 "rogue" =
      ((initEnumTS stTSEmpty twoClassTS "Two").1,
        Except.ok ⟨2, "rogue", none, none, false⟩) := by
  decide

/-- C6 (amended): before sealing, constructing an instance of an unmarked
class succeeds in both variants; after a successful sealing, the class of
the FIRST discovered member is marked and constructing it fails with the
illegal-instantiation error — members of a different concrete class are
not protected (see the counterexample). -/
theorem claim_C6_sealed_constructor_guard :
    (∀ (st : TSState) (c : Nat) (d : String), c ∉ st.sealedClasses →
      mkEnumValueTS st c d = (st, Except.ok ⟨c, d, none, none, false⟩)) ∧
    (∀ (st : ES5State) (c : Nat) (d : String), c ∉ st.sealedClasses →
      (mkEnumValueES5 st c d).2 =
        Except.ok ⟨c, d, some (getSize st.sizes c), none, false⟩) ∧
    (∀ (st : TSState) (e : EnumObj) (n : String) (st' : TSState) (e' : EnumObj)
        (k : String) (v : EnumValueData) (rest : List (String × EnumValueData)),
      initEnumTS st e n = (st', e', Except.ok ()) →
      evPairs e.props = (k, v) :: rest →
      ∀ d, mkEnumValueTS st' v.classId d =
        (st', Except.error EnumError.illegalInstantiation)) ∧
    (∀ (st : ES5State) (e : EnumObj) (n : String) (st' : ES5State) (e' : EnumObj)
        (k : String) (v : EnumValueData) (rest : List (String × EnumValueData)),
      initEnumES5 st e n = (st', e', Except.ok ()) →
      evPairs e.props = (k, v) :: rest →
      ∀ d, (mkEnumValueES5 st' v.classId d).2 =
        Except.error EnumError.illegalInstantiation) := by
  refine ⟨?_, ?_, ?_, ?_⟩
  · intro st c d hc
    simp [mkEnumValueTS, hc]
  · intro st c d hc
    simp [mkEnumValueES5, hc]
  · intro st e n st' e' k v rest hok hev
    obtain ⟨-, -, -, hsealed⟩ := initEnumTS_ok st e n st' e' hok
    have hlist : enumValuesTSList e.props =
        sealFnTS 0 (k, v) :: mapWithIndex sealFnTS 1 rest := by
      rw [enumValuesTSList, hev]
      rfl
    rw [hlist] at hsealed
    have hmem : v.classId ∈ st'.sealedClasses := by
      have h2 : st'.sealedClasses = v.classId :: st.sealedClasses := hsealed
      rw [h2]
      exact List.mem_cons_self _ _
    intro d
    simp [mkEnumValueTS, hmem]
  · intro st e n st' e' k v rest hok hev
    obtain ⟨-, -, -, hsealed⟩ := initEnumES5_ok st e n st' e' hok
    have hlist : enumValuesES5List e.props =
        (⟨v.classId, v.description, v.ordinal, some k, true⟩ : EnumValueData) ::
          (evPairs e.props).tail.map
            (fun p => { p.2 with propName := some p.1, frozen := true }) := by
      rw [enumValuesES5List, hev]
      rfl
    rw [hlist] at hsealed
    have hmem : v.classId ∈ st'.sealedClasses := by
      have h2 : st'.sealedClasses = v.classId :: st.sealedClasses := hsealed
      rw [h2]
      exact List.mem_cons_self _ _
    intro d
    simp [mkEnumValueES5, hmem]

/-- Witness for C6: class 1 constructs before sealing, and fails after the
Season enum (whose first member has class 1) is sealed. -/
theorem claim_C6_witness :
    mkEnumValueTS stTSEmpty 1 "x" =
      (stTSEmpty, Except.ok ⟨1, "x", none, none, false⟩) ∧
    mkEnumValueTS (initEnumTS stTSEmpty seasonTS "Season").1 1 "rogue" =
      ((initEnumTS stTSEmpty seasonTS "Season").1,
        Except.error EnumError.illegalInstantiation) := by
  constructor
  · exact claim_C6_sealed_constructor_guard.1 stTSEmpty 1 "x" (by decide)
  · exact claim_C6_sealed_constructor_guard.2.2.1 stTSEmpty seasonTS "Season"
      (initEnumTS stTSEmpty seasonTS "Season").1
      (initEnumTS stTSEmpty seasonTS "Season").2.1
      "SPRING" ⟨1, "Spring", none, none, false⟩
      [("SUMMER", ⟨1, "Summer", none, none, false⟩),
       ("FALL", ⟨1, "Fall", none, none, false⟩),
       ("WINTER", ⟨1, "Winter", none, none, false⟩)]
      (by decide) (by decide) "rogue"

/-- C7 counterexample: the TS variant's `initEnum` freezes the values
array but never freezes `theEnum` itself — after a successful sealing the
container is still unfrozen, while the claim states the container is
frozen. -/
theorem claim_C7_counterexample :
    (initEnumTS stTSEmpty seasonTS "Season").2.2 = Except.ok () ∧
    (initEnumTS stTSEmpty seasonTS "Season").2.1.frozen = false := by
  decide

/-- C7 (amended): after a successful `initEnum`, every member — both in
the registered sequence and as attached to the enum object — is frozen;
the ES5 variant also freezes the container, but the TS variant leaves the
container's frozen state unchanged (it freezes the stored values array
instead). -/
theorem claim_C7_frozen_after_seal :
    (∀ (st : TSState) (e : EnumObj) (n : String) (st' : TSState) (e' : EnumObj),
      initEnumTS st e n = (st', e', Except.ok ()) →
      (∀ vs, lookupReg st'.registry (some n) = some vs →
        ∀ v ∈ vs, v.frozen = true) ∧
      (∀ p ∈ evPairs e'.props, p.2.frozen = true) ∧
      e'.frozen = e.frozen) ∧
    (∀ (st : ES5State) (e : EnumObj) (n : String) (st' : ES5State) (e' : EnumObj),
      initEnumES5 st e n = (st', e', Except.ok ()) →
      (∀ vs, lookupReg st'.registry (some n) = some vs →
        ∀ v ∈ vs, v.frozen = true) ∧
      (∀ p ∈ evPairs e'.props, p.2.frozen = true) ∧
      e'.frozen = true) := by
  constructor
  · intro st e n st' e' h
    obtain ⟨-, hreg, he', -⟩ := initEnumTS_ok st e n st' e' h
    refine ⟨?_, ?_, ?_⟩
    · intro vs hvs
      rw [hreg, lookupReg_setReg_self] at hvs
      obtain rfl := Option.some.inj hvs
      exact mapWithIndex_sealFnTS_frozen 0 (evPairs e.props)
    · rw [he']
      exact evPairs_sealPropsTS_frozen 0 e.props
    · rw [he']
  · intro st e n st' e' h
    obtain ⟨-, hreg, he', -⟩ := initEnumES5_ok st e n st' e' h
    refine ⟨?_, ?_, ?_⟩
    · intro vs hvs
      rw [hreg, lookupReg_setReg_self] at hvs
      obtain rfl := Option.some.inj hvs
      exact enumValuesES5List_frozen e.props
    · rw [he']
      exact evPairs_sealPropsES5_frozen e.props
    · rw [he']

/-- Witness for C7 at the concrete Season enums. -/
theorem claim_C7_witness :
    (⟨1, "Spring", some 0, some "SPRING", true⟩ : EnumValueData).frozen = true ∧
    (initEnumTS stTSEmpty seasonTS "Season").2.1.frozen = seasonTS.frozen ∧
    (initEnumES5 stES5Empty seasonES5 "Season").2.1.frozen = true := by
  have hts := claim_C7_frozen_after_seal.1 stTSEmpty seasonTS "Season"
    (initEnumTS stTSEmpty seasonTS "Season").1
    (initEnumTS stTSEmpty seasonTS "Season").2.1 (by decide)
  have hes := claim_C7_frozen_after_seal.2 stES5Empty seasonES5 "Season"
    (initEnumES5 stES5Empty seasonES5 "Season").1
    (initEnumES5 stES5Empty seasonES5 "Season").2.1 (by decide)
  refine ⟨?_, hts.2.2, hes.2.2⟩
  exact hts.1 seasonValsSealed (by decide)
    ⟨1, "Spring", some 0, some "SPRING", true⟩ (by decide)

/-- C8: `byPropName` and `byDescription` are linear searches over the
`values` accessor's result — they return the first member whose property
name (respectively description) equals the argument, and return the
absent sentinel (`undefined`, modelled as `none`) rather than throwing
when no member matches. -/
theorem claim_C8_lookup
    (reg : List (String × List EnumValueData)) (e : EnumObj) (p d : String) :
    ((∀ v ∈ valuesAccessor reg e, v.propName ≠ some p) →
      byPropName reg e p = none) ∧
    (∀ v, byPropName reg e p = some v →
      v ∈ valuesAccessor reg e ∧ v.propName = some p) ∧
    (∀ l1 v l2, valuesAccessor reg e = l1 ++ v :: l2 → v.propName = some p →
      (∀ u ∈ l1, u.propName ≠ some p) → byPropName reg e p = some v) ∧
    ((∀ v ∈ valuesAccessor reg e, v.description ≠ d) →
      byDescription reg e d = none) ∧
    (∀ v, byDescription reg e d = some v →
      v ∈ valuesAccessor reg e ∧ v.description = d) ∧
    (∀ l1 v l2, valuesAccessor reg e = l1 ++ v :: l2 → v.description = d →
      (∀ u ∈ l1, u.description ≠ d) → byDescription reg e d = some v) := by
  refine ⟨?_, ?_, ?_, ?_, ?_, ?_⟩
  · intro hall
    refine List.find?_eq_none.mpr ?_
    intro x hx
    simp only [propNameMatches, beq_iff_eq]
    exact hall x hx
  · intro v hv
    refine ⟨List.mem_of_find?_eq_some hv, ?_⟩
    have := List.find?_some hv
    simpa [propNameMatches] using this
  · intro l1 v l2 hsplit hv h1
    rw [byPropName, hsplit]
    refine find?_append_first _ l1 v l2 ?_ ?_
    · intro u hu
      simpa [propNameMatches] using h1 u hu
    · simp [propNameMatches, hv]
  · intro hall
    refine List.find?_eq_none.mpr ?_
    intro x hx
    simp only [descriptionMatches, beq_iff_eq]
    exact hall x hx
  · intro v hv
    refine ⟨List.mem_of_find?_eq_some hv, ?_⟩
    have := List.find?_some hv
    simpa [descriptionMatches] using this
  · intro l1 v l2 hsplit hv h1
    rw [byDescription, hsplit]
    refine find?_append_first _ l1 v l2 ?_ ?_
    · intro u hu
      simpa [descriptionMatches] using h1 u hu
    · simp [descriptionMatches, hv]

/-- Witness for C8 on the sealed Season registry. -/
theorem claim_C8_witness :
    byPropName regSeason namedSeasonObj "SUMMER" =
      some ⟨1, "Summer", some 1, some "SUMMER", true⟩ ∧
    byPropName regSeason namedSeasonObj "NONEXISTENT" = none ∧
    byDescription regSeason namedSeasonObj "Fall" =
      some ⟨1, "Fall", some 2, some "FALL", true⟩ ∧
    byDescription regSeason namedSeasonObj "nonexistent" = none := by
  have h1 := claim_C8_lookup regSeason namedSeasonObj "SUMMER" "Fall"
  have h2 := claim_C8_lookup regSeason namedSeasonObj "NONEXISTENT" "nonexistent"
  refine ⟨?_, ?_, ?_, ?_⟩
  · exact h1.2.2.1 [⟨1, "Spring", some 0, some "SPRING", true⟩]
      ⟨1, "Summer", some 1, some "SUMMER", true⟩
      [⟨1, "Fall", some 2, some "FALL", true⟩,
       ⟨1, "Winter", some 3, some "WINTER", true⟩]
      (by decide) (by decide) (by decide)
  · exact h2.1 (by decide)
  · exact h1.2.2.2.2.2 [⟨1, "Spring", some 0, some "SPRING", true⟩,
      ⟨1, "Summer", some 1, some "SUMMER", true⟩]
      ⟨1, "Fall", some 2, some "FALL", true⟩
      [⟨1, "Winter", some 3, some "WINTER", true⟩]
      (by decide) (by decide) (by decide)
  · exact h2.2.2.2.1 (by decide)

/-- C9 counterexample: the TS `Enum` class defines no `toString`, so a
sealed TS enum stringifies via `Object.prototype.toString` to
"[object Object]" — not its registration name "Season" as the claim
states. -/
theorem claim_C9_counterexample :
    (initEnumTS stTSEmpty seasonTS "Season").2.2 = Except.ok () ∧
    toStringTS (initEnumTS stTSEmpty seasonTS "Season").2.1 ≠ "Season" := by
  decide

/-- C9 (amended): in the ES5 variant, after a successful `initEnum` under
name `n`, `toString()` on the enum object returns exactly `n`; the TS
variant defines no `toString` and falls back to the default object
stringification. -/
theorem claim_C9_toString
    (st : ES5State) (e : EnumObj) (n : String)
    (st' : ES5State) (e' : EnumObj)
    (h : initEnumES5 st e n = (st', e', Except.ok ())) :
    toStringES5 e' = some n := by
  obtain ⟨-, -, he', -⟩ := initEnumES5_ok st e n st' e' h
  rw [he']
  rfl

/-- Witness for C9 at the concrete ES5 Season enum. -/
theorem claim_C9_witness :
    toStringES5 (initEnumES5 stES5Empty seasonES5 "Season").2.1 =
      some "Season" :=
  claim_C9_toString stES5Empty seasonES5 "Season"
    (initEnumES5 stES5Empty seasonES5 "Season").1
    (initEnumES5 stES5Empty seasonES5 "Season").2.1 (by decide)

/-- C10: when the enum's name is not present in the registry (in
particular while `name` is still undefined, before `initEnum` completes),
the `values` accessor returns the empty sequence rather than failing, and
`byPropName` / `byDescription` therefore return the absent sentinel for
every argument. -/
theorem claim_C10_unregistered
    (reg : List (String × List EnumValueData)) (e : EnumObj)
    (h : lookupReg reg e.name = none) :
    valuesAccessor reg e = [] ∧
    (∀ p, byPropName reg e p = none) ∧
    (∀ d, byDescription reg e d = none) := by
  have hv : valuesAccessor reg e = [] := by
    simp [valuesAccessor, h]
  exact ⟨hv, fun p => by simp [byPropName, hv, List.find?],
    fun d => by simp [byDescription, hv, List.find?]⟩

/-- Witness for C10 on an unsealed enum object with a populated
registry. -/
theorem claim_C10_witness :
    valuesAccessor regSeason ⟨[], none, false⟩ = [] ∧
    byPropName regSeason ⟨[], none, false⟩ "SPRING" = none ∧
    byDescription regSeason ⟨[], none, false⟩ "Spring" = none := by
  have h := claim_C10_unregistered regSeason ⟨[], none, false⟩ (by decide)
  exact ⟨h.1, h.2.1 "SPRING", h.2.2 "Spring"⟩
